import Mathlib

/-!
A shallow embedding of `src/ERLAB/data.py`, whose single function
`load_ses_spectra` reads a directory of ARPES text files, extracts from each
file an angle value and a tab-separated numeric body placed after a line
containing the marker `[Data]`, wraps each body as a labelled array, and
concatenates the per-file arrays along the angle axis (renamed `kx`),
attaching a synthesized `ky` coordinate.

Modelling conventions:
* a file is a `PyFile`: its basename together with its list of lines, each
  line given without its trailing newline (Python `readlines` keeps the
  newline, but every use in the script strips it or is insensitive to it);
* the function input is the value of
  `sorted(glob.glob(os.path.join(directory_path, file_pattern)))`,
  that is, the lexicographically sorted list of matched files;
* Python `float(...)` is modelled by `pyFloat`, an exact rational parser for
  finite decimal literals (optional sign, digits, optional decimal point,
  optional exponent, surrounding whitespace); the `inf`/`nan`/underscore
  forms accepted by CPython never occur in these headers and are omitted;
* Python list indexing `lines[j]` is modelled by `pyGet`, including the
  negative-index wrap-around and the `IndexError` (`none`) case;
* `pd.read_csv(path, sep=chr 9, header=None, skiprows=k)` is modelled as:
  drop the first `k` lines, skip blank lines, split each remaining line on
  the tab character, and parse each field with `pyFloat` (an unparseable or
  missing field is `none`, standing for NaN);
* `xr.concat(datasets, dim=angle, join=outer)` is modelled by
  `combineDatasets`: the indexed `energy` dimension is outer-joined (union
  of the per-file energy coordinates, sorted when they are not all equal),
  while the unindexed `y_pixel` dimension cannot be aligned, so differing
  `y_pixel` sizes make xarray raise; reindexing a file whose energy index
  holds duplicates (needed only when the indexes are not all equal) also
  raises.  Both raises are collapsed into `LoadError.concatError`.
-/

namespace ERLAB

/-- A data file as the script sees it: `name` is `os.path.basename` of its
path, `lines` its list of lines, each without the trailing newline. -/
structure PyFile where
  name : String
  lines : List String
deriving DecidableEq

/-- Python list indexing `l[j]`: a nonnegative index must be in range, a
negative index counts from the end of the list, and an out-of-range index
raises `IndexError`, modelled by `none`. -/
def pyGet (l : List String) (j : Int) : Option String :=
  if 0 ≤ j then l.get? j.toNat
  else if 0 ≤ j + l.length then l.get? (j + l.length).toNat
  else none

/-- Negation on `ℚ` computed through `mkRat` (the field operations on `ℚ`
are irreducible, so the embedding computes with `mkRat`; `qneg_eq` below
identifies this with negation). -/
def qneg (a : ℚ) : ℚ := mkRat (-a.num) a.den

/-- Addition on `ℚ` computed through `mkRat`; `qadd_eq` below identifies it
with addition. -/
def qadd (a b : ℚ) : ℚ :=
  mkRat (a.num * b.den + b.num * a.den) (a.den * b.den)

/-- Subtraction on `ℚ` computed through `mkRat`; `qsub_eq` below identifies
it with subtraction. -/
def qsub (a b : ℚ) : ℚ := qadd a (qneg b)

/-- Multiplication on `ℚ` computed through `mkRat`; `qmul_eq` below
identifies it with multiplication. -/
def qmul (a b : ℚ) : ℚ := mkRat (a.num * b.num) (a.den * b.den)

/-- Whitespace characters stripped by Python `str.strip` / `float`. -/
def isWs (c : Char) : Bool :=
  c = ' ' || c = '\t' || c = '\n' || c = '\r' || c = '\u000B' || c = '\u000C'

/-- Strip leading and trailing whitespace from a character list. -/
def pyStrip (cs : List Char) : List Char :=
  ((cs.dropWhile isWs).reverse.dropWhile isWs).reverse

/-- Decimal digit test. -/
def isDig (c : Char) : Bool := '0' ≤ c && c ≤ '9'

/-- Value of one decimal digit. -/
def digVal (c : Char) : Nat := c.toNat - '0'.toNat

/-- Value of a string of decimal digits. -/
def natOfDigits (cs : List Char) : Nat :=
  cs.foldl (fun a c => 10 * a + digVal c) 0

/-- Exponent part of a Python float literal, applied to an already parsed
mantissa: empty input keeps the mantissa, `e`/`E` followed by an optional
sign and a nonempty digit string scales it, anything else fails. -/
def pyFloatExp (mant : ℚ) (rest : List Char) : Option ℚ :=
  match rest with
  | [] => some mant
  | c :: r =>
    if c = 'e' || c = 'E' then
      let signAndRest : Bool × List Char :=
        match r with
        | '+' :: t => (true, t)
        | '-' :: t => (false, t)
        | t => (true, t)
      let ds := signAndRest.2.takeWhile isDig
      let r3 := signAndRest.2.dropWhile isDig
      if ds = [] ∨ r3 ≠ [] then none
      else if signAndRest.1 then some (qmul mant (mkRat ((10 : ℤ) ^ natOfDigits ds) 1))
      else some (qmul mant (mkRat 1 (10 ^ natOfDigits ds)))
    else none

/-- Python `float(...)` on finite decimal literals, as an exact rational:
strip whitespace, optional sign, then digits with an optional decimal point
and an optional exponent; any other shape raises `ValueError`, modelled by
`none`. -/
def pyFloatChars (s : List Char) : Option ℚ :=
  let cs := pyStrip s
  let signAndRest : Bool × List Char :=
    match cs with
    | '+' :: t => (false, t)
    | '-' :: t => (true, t)
    | t => (false, t)
  let ip := signAndRest.2.takeWhile isDig
  let rest1 := signAndRest.2.dropWhile isDig
  let unsigned : Option ℚ :=
    match rest1 with
    | '.' :: r =>
      let fp := r.takeWhile isDig
      let rest2 := r.dropWhile isDig
      if ip = [] ∧ fp = [] then none
      else
        pyFloatExp
          (qadd (mkRat (natOfDigits ip) 1) (mkRat (natOfDigits fp) (10 ^ fp.length)))
          rest2
    | r =>
      if ip = [] then none
      else pyFloatExp (mkRat (natOfDigits ip) 1) r
  match unsigned with
  | none => none
  | some v => some (if signAndRest.1 then qneg v else v)

/-- Python `float(s)` on a string. -/
def pyFloat (s : String) : Option ℚ := pyFloatChars s.data

/-- Test whether the pattern is an initial segment of the character list. -/
def beginsWith : List Char → List Char → Bool
  | [], _ => true
  | _ :: _, [] => false
  | p :: ps, c :: cs => p = c && beginsWith ps cs

/-- Test whether the pattern occurs inside the character list, modelling the
Python substring test `pat in s`. -/
def containsSub (pat : List Char) : List Char → Bool
  | [] => beginsWith pat []
  | c :: cs => beginsWith pat (c :: cs) || containsSub pat cs

/-- Python `"[Data]" in line`. -/
def containsMarker (line : String) : Bool :=
  containsSub "[Data]".data line.data

/-- Index of the first line containing the `[Data]` marker, modelling the
`for i, line in enumerate(lines)` loop with its `break`. -/
def findMarker : List String → Option Nat
  | [] => none
  | l :: ls =>
    if containsMarker l then some 0 else (findMarker ls).map (fun n => n + 1)

/-- One attempt of the script: `float(lines[j].strip())`, where both an
`IndexError` from the lookup and a `ValueError` from the parse are caught,
modelled by `none`. -/
def tryParseAt (lines : List String) (j : Int) : Option ℚ :=
  match pyGet lines j with
  | none => none
  | some s => pyFloat s

/-- The angle value chosen for a file whose first marker line has index `i`:
`float(lines[i - 3])`, falling back to `float(lines[i - 4])`, with `none`
(skip the file, print a warning) when both attempts fail. -/
def angleOf (lines : List String) (i : Nat) : Option ℚ :=
  match tryParseAt lines ((i : ℤ) - 3) with
  | some a => some a
  | none => tryParseAt lines ((i : ℤ) - 4)

/-- Split a character list on tab characters, as `str.split` with a tab
separator does: `n` tabs give `n + 1` fields. -/
def splitTabs : List Char → List (List Char)
  | [] => [[]]
  | c :: cs =>
    if c = '\t' then [] :: splitTabs cs
    else
      match splitTabs cs with
      | [] => [[c]]
      | f :: fs => (c :: f) :: fs

/-- The rows `pd.read_csv` produces from the lines after the first `start`
ones: blank lines are skipped and every other line is split on tabs. -/
def tableOf (lines : List String) (start : Nat) : List (List (List Char)) :=
  ((lines.drop start).filter (fun l => l != "")).map (fun l => splitTabs l.data)

/-- The per-file labelled array: the scalar `angle` coordinate, the parsed
first column as the `energy` coordinate (`none` for an unparseable field,
standing for NaN), and the remaining parsed columns as the intensity rows
along the `y_pixel` dimension. -/
structure FileDS where
  angle : ℚ
  energies : List (Option ℚ)
  rows : List (List (Option ℚ))
deriving DecidableEq

/-- Size of the `y_pixel` dimension of a per-file array: the field count of
the first row (pandas fixes the column count from the first row) minus the
energy column. -/
def FileDS.npix (ds : FileDS) : Nat := (ds.rows.headD []).length

/-- Build the per-file array for a file whose first marker line has index
`i` and whose angle parsed to `a`: read the body with
`skiprows = i + 1`, take `df.iloc[:, 0]` as the energy coordinate and
`df.iloc[:, 1:]` as the data. -/
def buildDS (f : PyFile) (i : Nat) (a : ℚ) : FileDS :=
  let tbl := tableOf f.lines (i + 1)
  { angle := a
    energies := tbl.map (fun r => pyFloatChars (r.headD []))
    rows := tbl.map (fun r => (r.drop 1).map pyFloatChars) }

/-- Outcome of the loop body on one file: a dataset appended to the list, a
skip after the angle warning was printed, or a silent skip because no line
contains the marker. -/
inductive FileOutcome where
  | dataset (ds : FileDS)
  | warnSkip
  | silentSkip
deriving DecidableEq

/-- Whether the outcome contributed a dataset. -/
def FileOutcome.isDataset : FileOutcome → Bool
  | .dataset _ => true
  | _ => false

/-- The dataset carried by the outcome, if any. -/
def FileOutcome.toDataset : FileOutcome → Option FileDS
  | .dataset d => some d
  | _ => none

/-- The loop body of `load_ses_spectra` on one file: find the first marker
line, choose the angle, and either build the dataset, skip with a warning
(angle unparseable), or skip silently (no marker anywhere). -/
def processFile (f : PyFile) : FileOutcome :=
  match findMarker f.lines with
  | none => FileOutcome.silentSkip
  | some i =>
    match angleOf f.lines i with
    | none => FileOutcome.warnSkip
    | some a => FileOutcome.dataset (buildDS f i a)

/-- The warning text printed for a file whose angle could not be parsed. -/
def warnMsg (f : PyFile) : String :=
  "Warning: Could not parse angle in " ++ f.name ++ ". Skipping."

/-- All warnings printed over a run, in file order. -/
def warningsOf (file_list : List PyFile) : List String :=
  file_list.filterMap (fun f =>
    match processFile f with
    | .warnSkip => some (warnMsg f)
    | _ => none)

/-- The `datasets` list accumulated over the loop. -/
def datasetsOf (file_list : List PyFile) : List FileDS :=
  file_list.filterMap (fun f => (processFile f).toDataset)

/-- Comparison used to sort the outer-joined energy index: rationals in
order, with `none` (NaN) sorted last, as pandas sorts a union. -/
def oleR (a b : Option ℚ) : Bool :=
  match a, b with
  | none, none => true
  | none, some _ => false
  | some _, none => true
  | some x, some y => decide (x ≤ y)

/-- Insert into a list sorted by `oleR`. -/
def insertOle (x : Option ℚ) : List (Option ℚ) → List (Option ℚ)
  | [] => [x]
  | y :: ys => if oleR y x then y :: insertOle x ys else x :: y :: ys

/-- Sort by `oleR` (insertion sort). -/
def sortOle (l : List (Option ℚ)) : List (Option ℚ) :=
  l.foldr insertOle []

/-- Whether all per-file energy indexes are equal (the case in which xarray
alignment leaves every dataset untouched). -/
def allEnergiesEqual : List (List (Option ℚ)) → Bool
  | [] => true
  | e :: rest => rest.all (fun x => decide (x = e))

/-- The energy index of the combined array: when the per-file indexes all
agree it is kept as is, otherwise the outer join takes the sorted union of
their values. -/
def joinIndex (ls : List (List (Option ℚ))) : List (Option ℚ) :=
  match ls with
  | [] => []
  | e :: rest =>
    if allEnergiesEqual (e :: rest) then e
    else sortOle ((e :: rest).flatten.dedup)

/-- `np.linspace a b n` as exact rationals. -/
def linspace (a b : ℚ) (n : Nat) : List ℚ :=
  if n = 0 then []
  else if n = 1 then [a]
  else
    (List.range n).map
      (fun k : ℕ =>
        qadd a (qmul (qmul (qsub b a) (mkRat (k : ℤ) 1)) (mkRat 1 (n - 1))))

/-- The exceptions `load_ses_spectra` can let escape: the explicit
`FileNotFoundError` and `ValueError` raises, and the `ValueError` raised
inside `xr.concat` when the datasets cannot be aligned. -/
inductive LoadError where
  | fileNotFound
  | noValidData
  | concatError
deriving DecidableEq

/-- The combined array returned on success: the per-file slices along the
`kx` (former `angle`) dimension, the outer-joined `energy` index, the
`y_pixel` size, and the synthesized `ky` coordinate. -/
structure Combined where
  slices : List FileDS
  energies : List (Option ℚ)
  npix : Nat
  ky : List ℚ
deriving DecidableEq

/-- `xr.concat(datasets, dim=angle, join=outer)` followed by the rename and
the `ky` assignment: empty input raises the no-valid-data error; unindexed
`y_pixel` dimensions of differing sizes cannot be aligned, and reindexing a
duplicate energy index (needed when the indexes are not all equal) also
fails, both modelled by `concatError`. -/
def combineDatasets (datasets : List FileDS) : Except LoadError Combined :=
  match datasets with
  | [] => Except.error LoadError.noValidData
  | d0 :: rest =>
    if (rest.all fun d => decide (d.npix = d0.npix)) &&
        (allEnergiesEqual ((d0 :: rest).map (fun d => d.energies)) ||
          ((d0 :: rest).map (fun d => d.energies)).all fun e => decide e.Nodup) then
      Except.ok
        { slices := d0 :: rest
          energies := joinIndex ((d0 :: rest).map (fun d => d.energies))
          npix := d0.npix
          ky := linspace (-1) 1 d0.npix }
    else Except.error LoadError.concatError

/-- The function `load_ses_spectra`, applied to the sorted list of files
matched by the glob pattern. -/
def load_ses_spectra (file_list : List PyFile) : Except LoadError Combined :=
  if file_list = [] then Except.error LoadError.fileNotFound
  else combineDatasets (datasetsOf file_list)

/-- The `kx` coordinate of the combined array: one parsed angle per slice. -/
def Combined.kxs (c : Combined) : List ℚ := c.slices.map (fun d => d.angle)

/-- Index of the first occurrence of a value in an energy index (the row a
reindex takes its data from). -/
def findIdxQ (e : Option ℚ) : List (Option ℚ) → Option Nat
  | [] => none
  | x :: xs => if x = e then some 0 else (findIdxQ e xs).map (fun n => n + 1)

/-- Value of the combined array at slice `fi`, energy coordinate `e` and
pixel `p`, after the outer-join reindexing: `none` stands for NaN fill. -/
def Combined.cell (c : Combined) (fi : Nat) (e : Option ℚ) (p : Nat) :
    Option ℚ :=
  match c.slices.get? fi with
  | none => none
  | some ds =>
    match findIdxQ e ds.energies with
    | none => none
    | some r =>
      match ds.rows.get? r with
      | none => none
      | some row => (row.get? p).join

/-- The angle-selection rule as the specification sentence literally reads:
the float parsed from the line 3 lines before the marker line, then from
the line 4 lines before it, where a line that does not exist (marker index
smaller than the offset) counts as a failed parse. -/
def specAngleRule (lines : List String) (i : Nat) : Option ℚ :=
  match (if 3 ≤ i then pyFloat (lines.getD (i - 3) "") else none) with
  | some a => some a
  | none => if 4 ≤ i then pyFloat (lines.getD (i - 4) "") else none

/-! Concrete files used to instantiate the theorems below. -/

/-- A well-formed file: marker at line 4, angle `0.5` three lines before
it, two tab-separated body rows. -/
def wfFile1 : PyFile :=
  { name := "S313_MgB2_001.txt"
    lines := ["x", "0.5", "m1", "m2", "[Data]", "1\t10\t20", "2\t30\t40"] }

/-- A second well-formed file with the same shape and angle `0.75`. -/
def wfFile2 : PyFile :=
  { name := "S313_MgB2_002.txt"
    lines := ["y", "0.75", "m1", "m2", "[Data]", "1\t50\t60", "2\t70\t80"] }

/-- The combined array produced from `wfFile1` and `wfFile2`. -/
def combinedWF : Combined :=
  { slices := [buildDS wfFile1 4 (mkRat 1 2), buildDS wfFile2 4 (mkRat 3 4)]
    energies := [some 1, some 2]
    npix := 2
    ky := [-1, 1] }

/-- A file with a marker but no parseable angle at either offset. -/
def badAngleFile : PyFile :=
  { name := "S313_MgB2_003.txt"
    lines := ["h1", "h2", "h3", "h4", "[Data]", "1\t10\t20"] }

/-- A file no line of which contains the marker. -/
def noMarkerFile : PyFile :=
  { name := "S313_MgB2_004.txt"
    lines := ["h1", "h2"] }

/-- A file whose marker is its first line, with a parseable value near the
end of the file: `lines[0 - 3]` wraps around to `lines[1]`. -/
def tailAngleFile : PyFile :=
  { name := "S313_MgB2_005.txt"
    lines := ["[Data]", "1.25", "7", "8"] }

/-- A well-formed file with two pixel columns. -/
def cexFileA : PyFile :=
  { name := "S313_MgB2_006.txt"
    lines := ["0.1", "h", "h", "[Data]", "1\t10\t20"] }

/-- A well-formed file with one pixel column. -/
def cexFileB : PyFile :=
  { name := "S313_MgB2_007.txt"
    lines := ["0.2", "h", "h", "[Data]", "1\t10"] }

/-! Helper lemmas. -/

/-- A successful index lookup implies membership. -/
theorem mem_of_get_opt {α : Type} {l : List α} {n : Nat} {a : α}
    (h : l.get? n = some a) : a ∈ l := by
  induction l generalizing n with
  | nil => exact absurd h (by simp)
  | cons x xs ih =>
    cases n with
    | zero =>
      simp only [List.get?] at h
      exact (Option.some.inj h) ▸ List.mem_cons_self x xs
    | succ m => exact List.mem_cons_of_mem x (ih h)

/-- An in-range index lookup succeeds. -/
theorem get_opt_isSome {α : Type} {l : List α} {n : Nat}
    (h : n < l.length) : (l.get? n).isSome = true := by
  induction l generalizing n with
  | nil => simp at h
  | cons x xs ih =>
    cases n with
    | zero => rfl
    | succ m => exact ih (by simpa using h)

/-- The computed negation agrees with negation on `ℚ`. -/
theorem qneg_eq (a : ℚ) : qneg a = -a := by
  unfold qneg
  rw [Rat.mkRat_eq_div]
  push_cast
  rw [neg_div, Rat.num_div_den]

/-- The computed addition agrees with addition on `ℚ`. -/
theorem qadd_eq (a b : ℚ) : qadd a b = a + b := by
  have ha : ((a.den : ℚ)) ≠ 0 := Nat.cast_ne_zero.mpr a.den_nz
  have hb : ((b.den : ℚ)) ≠ 0 := Nat.cast_ne_zero.mpr b.den_nz
  unfold qadd
  rw [Rat.mkRat_eq_div]
  push_cast
  conv_rhs => rw [← Rat.num_div_den a, ← Rat.num_div_den b]
  rw [div_add_div _ _ ha hb]
  ring_nf

/-- The computed subtraction agrees with subtraction on `ℚ`. -/
theorem qsub_eq (a b : ℚ) : qsub a b = a - b := by
  rw [qsub, qadd_eq, qneg_eq, ← sub_eq_add_neg]

/-- The computed multiplication agrees with multiplication on `ℚ`. -/
theorem qmul_eq (a b : ℚ) : qmul a b = a * b := by
  unfold qmul
  rw [Rat.mkRat_eq_div]
  push_cast
  rw [← div_mul_div_comm, Rat.num_div_den, Rat.num_div_den]

/-- A fraction with denominator one is its numerator. -/
theorem mkRat_den_one (n : ℤ) : mkRat n 1 = (n : ℚ) := by
  rw [Rat.mkRat_eq_div]
  simp

/-- A fraction with numerator one is the reciprocal of its denominator. -/
theorem mkRat_num_one (d : ℕ) : mkRat 1 d = 1 / (d : ℚ) := by
  rw [Rat.mkRat_eq_div]
  norm_num

/-- `linspace` has the requested length. -/
theorem linspace_length (a b : ℚ) (n : Nat) : (linspace a b n).length = n := by
  unfold linspace
  split
  · simp [*]
  · split
    · simp [*]
    · simp

/-- Entry `k` of `linspace a b n` is `a + (b - a) * k / (n - 1)` (with the
convention that division by zero is zero, which also covers `n = 1`). -/
theorem linspace_get (a b : ℚ) (n k : Nat) (hk : k < n) :
    (linspace a b n).get? k = some (a + (b - a) * (k : ℚ) / ((n : ℚ) - 1)) := by
  unfold linspace
  split
  · omega
  · split
    · next h1 =>
      have hk0 : k = 0 := by omega
      subst hk0
      subst h1
      norm_num [List.get?]
    · next h1 =>
      have hrange : (List.range n).get? k = some k := List.get?_range hk
      have hcast : ((n - 1 : ℕ) : ℚ) = (n : ℚ) - 1 := by
        have h2 : 1 ≤ n := by omega
        push_cast [h2]
        ring
      have hval :
          qadd a (qmul (qmul (qsub b a) (mkRat (k : ℤ) 1)) (mkRat 1 (n - 1)))
            = a + (b - a) * (k : ℚ) / ((n : ℚ) - 1) := by
        rw [qadd_eq, qmul_eq, qmul_eq, qsub_eq, mkRat_den_one, mkRat_num_one,
          hcast, mul_one_div]
        push_cast
        ring
      rw [List.get?_map, hrange]
      exact congrArg some hval

/-- Inverting a successful run: the file list was nonempty and the
concatenation succeeded on the accumulated datasets. -/
theorem load_ok {files : List PyFile} {c : Combined}
    (h : load_ses_spectra files = Except.ok c) :
    files ≠ [] ∧ combineDatasets (datasetsOf files) = Except.ok c := by
  by_cases hne : files = []
  · subst hne
    exact absurd h (by simp [load_ses_spectra])
  · refine ⟨hne, ?_⟩
    unfold load_ses_spectra at h
    rwa [if_neg hne] at h

/-- Inverting a successful concatenation: the slices are the datasets, the
energy index is their outer join, every slice has the common pixel count,
and `ky` is the synthesized linear ramp. -/
theorem combine_ok {datasets : List FileDS} {c : Combined}
    (h : combineDatasets datasets = Except.ok c) :
    c.slices = datasets ∧
    c.energies = joinIndex (datasets.map (fun d => d.energies)) ∧
    (∀ d ∈ datasets, d.npix = c.npix) ∧
    c.ky = linspace (-1) 1 c.npix := by
  cases datasets with
  | nil => exact absurd h (by simp [combineDatasets])
  | cons d0 rest =>
    simp only [combineDatasets] at h
    split at h
    · next hcond =>
      rw [Bool.and_eq_true] at hcond
      obtain ⟨hc1, -⟩ := hcond
      injection h with h2
      subst h2
      refine ⟨rfl, rfl, ?_, rfl⟩
      intro d hd
      rcases List.mem_cons.mp hd with rfl | hd2
      · rfl
      · exact of_decide_eq_true (List.all_eq_true.mp hc1 d hd2)
    · exact Except.noConfusion h

/-- The dataset list over an appended file list splits. -/
theorem datasetsOf_append (l1 l2 : List PyFile) :
    datasetsOf (l1 ++ l2) = datasetsOf l1 ++ datasetsOf l2 :=
  List.filterMap_append l1 l2 _

/-- The warning list over an appended file list splits. -/
theorem warningsOf_append (l1 l2 : List PyFile) :
    warningsOf (l1 ++ l2) = warningsOf l1 ++ warningsOf l2 :=
  List.filterMap_append l1 l2 _

/-- When every file yields a dataset, the dataset list has one entry per
file. -/
theorem datasetsOf_length_eq (files : List PyFile)
    (h : ∀ f ∈ files, (processFile f).isDataset = true) :
    (datasetsOf files).length = files.length := by
  induction files with
  | nil => rfl
  | cons f fs ih =>
    have hf := h f (List.mem_cons_self f fs)
    have ih2 := ih (fun g hg => h g (List.mem_cons_of_mem f hg))
    cases hpf : processFile f with
    | dataset d =>
      simp only [datasetsOf, List.filterMap_cons, hpf, FileOutcome.toDataset,
        List.length_cons]
      simpa [datasetsOf] using ih2
    | warnSkip => rw [hpf] at hf; simp [FileOutcome.isDataset] at hf
    | silentSkip => rw [hpf] at hf; simp [FileOutcome.isDataset] at hf

/-- When no file yields a dataset, the dataset list is empty. -/
theorem datasetsOf_eq_nil (files : List PyFile)
    (h : ∀ f ∈ files, (processFile f).isDataset = false) :
    datasetsOf files = [] := by
  induction files with
  | nil => rfl
  | cons f fs ih =>
    have hf := h f (List.mem_cons_self f fs)
    have ih2 := ih (fun g hg => h g (List.mem_cons_of_mem f hg))
    cases hpf : processFile f with
    | dataset d => rw [hpf] at hf; simp [FileOutcome.isDataset] at hf
    | warnSkip =>
      simpa [datasetsOf, List.filterMap_cons, hpf, FileOutcome.toDataset]
        using ih2
    | silentSkip =>
      simpa [datasetsOf, List.filterMap_cons, hpf, FileOutcome.toDataset]
        using ih2

/-- A nonempty run in which no file yields a dataset raises the
no-valid-data error. -/
theorem noValid_core (files : List PyFile) (hne : files ≠ [])
    (h : ∀ f ∈ files, (processFile f).isDataset = false) :
    load_ses_spectra files = Except.error LoadError.noValidData := by
  unfold load_ses_spectra
  rw [if_neg hne, datasetsOf_eq_nil files h]
  rfl

/-- Membership in an `insertOle` insertion. -/
theorem mem_insertOle {x y : Option ℚ} {l : List (Option ℚ)} :
    x ∈ insertOle y l ↔ x = y ∨ x ∈ l := by
  induction l with
  | nil => simp [insertOle]
  | cons z zs ih =>
    rw [insertOle]
    split
    · rw [List.mem_cons, ih, List.mem_cons]
      tauto
    · simp only [List.mem_cons]

/-- Sorting preserves membership. -/
theorem mem_sortOle {x : Option ℚ} {l : List (Option ℚ)} :
    x ∈ sortOle l ↔ x ∈ l := by
  induction l with
  | nil => exact Iff.rfl
  | cons y ys ih =>
    show x ∈ insertOle y (sortOle ys) ↔ _
    rw [mem_insertOle, ih, List.mem_cons]

/-- Every value of every per-file energy index appears in the outer-joined
index. -/
theorem mem_joinIndex {e : Option ℚ} {l : List (Option ℚ)}
    {ls : List (List (Option ℚ))} (hls : l ∈ ls) (he : e ∈ l) :
    e ∈ joinIndex ls := by
  cases ls with
  | nil => cases hls
  | cons e0 rest =>
    rw [joinIndex]
    split
    · next hall =>
      rcases List.mem_cons.mp hls with rfl | hmem
      · exact he
      · have hle : l = e0 :=
          of_decide_eq_true (List.all_eq_true.mp hall l hmem)
        exact hle ▸ he
    · rw [mem_sortOle, List.mem_dedup, List.mem_flatten]
      exact ⟨l, hls, he⟩

/-- A value absent from an index is not found. -/
theorem findIdxQ_eq_none {e : Option ℚ} {l : List (Option ℚ)}
    (h : e ∉ l) : findIdxQ e l = none := by
  induction l with
  | nil => rfl
  | cons x xs ih =>
    rw [List.mem_cons] at h
    push_neg at h
    rw [findIdxQ, if_neg (fun hx => h.1 hx.symm), ih h.2]
    rfl

/-- In an index without duplicates, the value at position `r` is found at
position `r`. -/
theorem findIdxQ_get {e : Option ℚ} {l : List (Option ℚ)} {r : Nat}
    (hnd : l.Nodup) (hr : l.get? r = some e) : findIdxQ e l = some r := by
  induction l generalizing r with
  | nil => exact absurd hr (by simp)
  | cons x xs ih =>
    obtain ⟨hx, hxs⟩ := List.nodup_cons.mp hnd
    cases r with
    | zero =>
      have hxe : x = e := Option.some.inj hr
      rw [findIdxQ, if_pos hxe]
    | succ m =>
      have hmem : e ∈ xs := mem_of_get_opt hr
      have hne : ¬x = e := fun hxe => hx (hxe ▸ hmem)
      rw [findIdxQ, if_neg hne, ih hxs hr]
      rfl

/-! Claim theorems. -/

/-- C1: for a directory whose files are all well formed (each yields a
dataset) and carry distinct parsed angles, the returned array has a `kx`
dimension of length exactly the number of files, one slice per file. -/
theorem load_kx_length (files : List PyFile) (c : Combined)
    (hwf : ∀ f ∈ files, (processFile f).isDataset = true)
    (hdist : ((datasetsOf files).map FileDS.angle).Nodup)
    (hok : load_ses_spectra files = Except.ok c) :
    c.slices.length = files.length ∧ c.kxs.length = files.length := by
  obtain ⟨-, hcomb⟩ := load_ok hok
  obtain ⟨hs, -, -, -⟩ := combine_ok hcomb
  have hlen := datasetsOf_length_eq files hwf
  constructor
  · rw [hs, hlen]
  · simp only [Combined.kxs]
    rw [hs, List.length_map, hlen]

/-- Witness for C1 at two concrete well-formed files. -/
theorem load_kx_length_w :
    (∀ f ∈ [wfFile1, wfFile2], (processFile f).isDataset = true) ∧
    combinedWF.slices.length = 2 ∧ combinedWF.kxs.length = 2 :=
  ⟨by decide,
    (load_kx_length [wfFile1, wfFile2] combinedWF (by decide) (by decide)
      rfl).1,
    (load_kx_length [wfFile1, wfFile2] combinedWF (by decide) (by decide)
      rfl).2⟩

/-- C4: when the glob matches no file, `load_ses_spectra` raises the
missing-files error (`FileNotFoundError`) and returns no array. -/
theorem empty_glob_error :
    load_ses_spectra [] = Except.error LoadError.fileNotFound := rfl

/-- C5: when the glob matches at least one file but every matched file
fails to yield a dataset (its angle is unparseable or it has no data
section), `load_ses_spectra` raises the no-valid-data error
(`ValueError`). -/
theorem all_invalid_error (files : List PyFile) (hne : files ≠ [])
    (hall : ∀ f ∈ files,
      processFile f = FileOutcome.warnSkip ∨
        processFile f = FileOutcome.silentSkip) :
    load_ses_spectra files = Except.error LoadError.noValidData := by
  refine noValid_core files hne (fun f hf => ?_)
  rcases hall f hf with h | h <;> rw [h] <;> rfl

/-- Witness for C5 at one unparseable-angle and one marker-free file. -/
theorem all_invalid_error_w :
    load_ses_spectra [badAngleFile, noMarkerFile]
      = Except.error LoadError.noValidData :=
  all_invalid_error [badAngleFile, noMarkerFile] (by decide) (by decide)

/-- C6: on every successful run the `ky` coordinate is the linear sequence
from `-1` to `1` of length the pixel-column count of the combined array,
independently of the input files. -/
theorem ky_is_linspace (files : List PyFile) (c : Combined)
    (hok : load_ses_spectra files = Except.ok c) :
    c.ky.length = c.npix ∧
    ∀ k, k < c.npix →
      c.ky.get? k = some (-1 + 2 * (k : ℚ) / ((c.npix : ℚ) - 1)) := by
  obtain ⟨-, hcomb⟩ := load_ok hok
  obtain ⟨-, -, -, hky⟩ := combine_ok hcomb
  rw [hky]
  refine ⟨linspace_length _ _ _, fun k hk => ?_⟩
  rw [linspace_get _ _ _ _ hk]
  norm_num

/-- Witness for C6 at two concrete files with two pixel columns. -/
theorem ky_is_linspace_w :
    combinedWF.ky.length = combinedWF.npix ∧
    combinedWF.ky.get? 1
      = some (-1 + 2 * ((1 : ℕ) : ℚ) / ((combinedWF.npix : ℚ) - 1)) :=
  ⟨(ky_is_linspace [wfFile1, wfFile2] combinedWF rfl).1,
    (ky_is_linspace [wfFile1, wfFile2] combinedWF rfl).2 1 (by decide)⟩

/-- C9: when the first marker line has index `i < 3` (respectively, on the
fallback, `i < 4`) and the file is long enough, the lookup `lines[i - 3]`
(respectively `lines[i - 4]`) does not raise `IndexError`: Python negative
indexing reads the line counted from the end of the file instead. -/
theorem negative_index_wraps (lines : List String) (i : Nat)
    (h3 : i < 3) (hlen : 3 - i ≤ lines.length) :
    pyGet lines ((i : ℤ) - 3) = lines.get? (lines.length - (3 - i)) ∧
    (pyGet lines ((i : ℤ) - 3)).isSome = true ∧
    (4 - i ≤ lines.length →
      pyGet lines ((i : ℤ) - 4) = lines.get? (lines.length - (4 - i))) := by
  have e3 : pyGet lines ((i : ℤ) - 3) = lines.get? (lines.length - (3 - i)) := by
    unfold pyGet
    rw [if_neg (by omega), if_pos (by omega)]
    congr 1
    omega
  refine ⟨e3, ?_, ?_⟩
  · rw [e3]
    exact get_opt_isSome (by omega)
  · intro h4
    unfold pyGet
    rw [if_neg (by omega), if_pos (by omega)]
    congr 1
    omega

/-- Witness for C9: a marker at index 0 in a four-line file reads the
second line of the file, which is the third line counted from the end. -/
theorem negative_index_wraps_w :
    (0 : ℕ) < 3 ∧
    pyGet ["a", "b", "c", "d"] (((0 : ℕ) : ℤ) - 3)
      = ["a", "b", "c", "d"].get? (["a", "b", "c", "d"].length - (3 - 0)) :=
  ⟨by decide,
    (negative_index_wraps ["a", "b", "c", "d"] 0 (by decide) (by decide)).1⟩

/-- C2, counterexample: in a file whose first marker line is its first
line, no line lies 3 (or 4) lines before the marker, so under the claim
the file would be skipped with a warning; the code instead wraps around
and parses the angle `1.25` from the second line (third from the end),
producing a dataset. -/
theorem angle_offset_cex :
    findMarker tailAngleFile.lines = some 0 ∧
    specAngleRule tailAngleFile.lines 0 = none ∧
    angleOf tailAngleFile.lines 0 = some (mkRat 5 4) ∧
    processFile tailAngleFile ≠ FileOutcome.warnSkip := by
  decide

/-- C2, amended: for every processed file the angle is
`float(lines[i - 3])` under Python indexing semantics (a negative index
wraps around to the end of the file; an index below `-len` raises
`IndexError`, caught as a failure), falling back to `float(lines[i - 4])`
under the same semantics; only when both attempts fail is the file skipped
with a warning. -/
theorem angle_offset_amended (f : PyFile) (i : Nat)
    (hm : findMarker f.lines = some i) :
    (∀ a, tryParseAt f.lines ((i : ℤ) - 3) = some a →
      processFile f = FileOutcome.dataset (buildDS f i a)) ∧
    (tryParseAt f.lines ((i : ℤ) - 3) = none →
      ∀ a, tryParseAt f.lines ((i : ℤ) - 4) = some a →
        processFile f = FileOutcome.dataset (buildDS f i a)) ∧
    (tryParseAt f.lines ((i : ℤ) - 3) = none →
      tryParseAt f.lines ((i : ℤ) - 4) = none →
        processFile f = FileOutcome.warnSkip ∧ warnMsg f ∈ warningsOf [f]) := by
  refine ⟨?_, ?_, ?_⟩
  · intro a ha
    simp only [processFile, hm, angleOf, ha]
  · intro h3 a h4
    simp only [processFile, hm, angleOf, h3, h4]
  · intro h3 h4
    have hw : processFile f = FileOutcome.warnSkip := by
      simp only [processFile, hm, angleOf, h3, h4]
    exact ⟨hw, by simp [warningsOf, List.filterMap_cons, hw]⟩

/-- Witness for the amended C2 at a concrete file with marker index 4. -/
theorem angle_offset_amended_w :
    processFile wfFile1 = FileOutcome.dataset (buildDS wfFile1 4 (mkRat 1 2)) :=
  (angle_offset_amended wfFile1 4 (by decide)).1 (mkRat 1 2) (by decide)

/-- C3: a file whose angle parses at neither offset is excluded from the
output and generates a warning, but the run is not aborted and the
remaining files are still processed. -/
theorem warn_skip_nonfatal (fs1 fs2 : List PyFile) (f : PyFile)
    (hf : processFile f = FileOutcome.warnSkip) :
    warnMsg f ∈ warningsOf (fs1 ++ f :: fs2) ∧
    datasetsOf (fs1 ++ f :: fs2) = datasetsOf (fs1 ++ fs2) ∧
    ∀ c, load_ses_spectra (fs1 ++ fs2) = Except.ok c →
      load_ses_spectra (fs1 ++ f :: fs2) = Except.ok c := by
  have hds : datasetsOf (fs1 ++ f :: fs2) = datasetsOf (fs1 ++ fs2) := by
    rw [datasetsOf_append, datasetsOf_append]
    congr 1
    simp [datasetsOf, List.filterMap_cons, hf, FileOutcome.toDataset]
  refine ⟨?_, hds, ?_⟩
  · rw [warningsOf_append]
    refine List.mem_append_right _ ?_
    simp [warningsOf, List.filterMap_cons, hf]
  · intro c hc
    obtain ⟨-, hcomb⟩ := load_ok hc
    have hne : fs1 ++ f :: fs2 ≠ [] := by cases fs1 <;> simp
    unfold load_ses_spectra
    rw [if_neg hne, hds]
    exact hcomb

/-- Witness for C3: a bad-angle file between two good files is warned
about and dropped while the rest load as without it. -/
theorem warn_skip_nonfatal_w :
    warnMsg badAngleFile ∈ warningsOf ([wfFile1] ++ badAngleFile :: [wfFile2]) ∧
    datasetsOf ([wfFile1] ++ badAngleFile :: [wfFile2])
      = datasetsOf ([wfFile1] ++ [wfFile2]) ∧
    load_ses_spectra ([wfFile1] ++ badAngleFile :: [wfFile2])
      = Except.ok combinedWF :=
  ⟨(warn_skip_nonfatal [wfFile1] [wfFile2] badAngleFile (by decide)).1,
    (warn_skip_nonfatal [wfFile1] [wfFile2] badAngleFile (by decide)).2.1,
    (warn_skip_nonfatal [wfFile1] [wfFile2] badAngleFile (by decide)).2.2
      combinedWF rfl⟩

/-- C7, counterexample: two files whose tables have different pixel-column
counts (2 and 1) are not NaN-padded into a combined array; the
concatenation raises instead, because the `y_pixel` dimension carries no
coordinate that could be outer-joined. -/
theorem pixel_mismatch_cex :
    (datasetsOf [cexFileA, cexFileB]).map FileDS.npix = [2, 1] ∧
    load_ses_spectra [cexFileA, cexFileB]
      = Except.error LoadError.concatError :=
  ⟨by decide, rfl⟩

/-- C7, amended: outer-join semantics holds on the energy (row) axis,
which carries a coordinate: the combined array covers the union of the
per-file energy values, a slice is NaN at energies absent from its file,
and no row of any file is truncated; differing pixel-column counts instead
make the concatenation raise, since the `y_pixel` dimension has no
coordinate to align on. -/
theorem outer_join_amended :
    (∀ (files : List PyFile) (c : Combined),
      load_ses_spectra files = Except.ok c →
      (∀ ds ∈ c.slices, ds.npix = c.npix) ∧
      ∀ fi ds, c.slices.get? fi = some ds →
        (∀ e ∈ ds.energies, e ∈ c.energies) ∧
        (∀ e, e ∉ ds.energies → ∀ p, c.cell fi e p = none) ∧
        (ds.energies.Nodup →
          ∀ r e row, ds.energies.get? r = some e →
            ds.rows.get? r = some row →
            ∀ p, c.cell fi e p = (row.get? p).join)) ∧
    (∀ files : List PyFile, files ≠ [] →
      (∃ d1 ∈ datasetsOf files, ∃ d2 ∈ datasetsOf files,
        d1.npix ≠ d2.npix) →
      load_ses_spectra files = Except.error LoadError.concatError) := by
  constructor
  · intro files c hok
    obtain ⟨-, hcomb⟩ := load_ok hok
    obtain ⟨hs, hen, hnp, -⟩ := combine_ok hcomb
    constructor
    · intro ds hds
      exact hnp ds (hs ▸ hds)
    · intro fi ds hget
      have hmem : ds ∈ c.slices := mem_of_get_opt hget
      refine ⟨?_, ?_, ?_⟩
      · intro e he
        rw [hen]
        refine mem_joinIndex ?_ he
        rw [← hs]
        exact List.mem_map_of_mem _ hmem
      · intro e hne p
        simp only [Combined.cell, hget, findIdxQ_eq_none hne]
      · intro hnd r e row hr hrow p
        simp only [Combined.cell, hget, findIdxQ_get hnd hr, hrow]
  · intro files hne hd
    obtain ⟨d1, hd1, d2, hd2, hdne⟩ := hd
    unfold load_ses_spectra
    rw [if_neg hne]
    cases hds2 : datasetsOf files with
    | nil =>
      rw [hds2] at hd1
      cases hd1
    | cons d0 rest =>
      rw [hds2] at hd1 hd2
      have hx : ∃ x ∈ rest, ¬ x.npix = d0.npix := by
        rcases List.mem_cons.mp hd1 with rfl | h1m
        · rcases List.mem_cons.mp hd2 with rfl | h2m
          · exact absurd rfl hdne
          · exact ⟨d2, h2m, fun h => hdne h.symm⟩
        · by_cases hq : d1.npix = d0.npix
          · rcases List.mem_cons.mp hd2 with rfl | h2m
            · exact absurd hq hdne
            · by_cases hq2 : d2.npix = d0.npix
              · exact absurd (hq.trans hq2.symm) hdne
              · exact ⟨d2, h2m, hq2⟩
          · exact ⟨d1, h1m, hq⟩
      obtain ⟨x, hxm, hxne⟩ := hx
      simp only [combineDatasets]
      rw [if_neg (by
        intro hcond
        rw [Bool.and_eq_true] at hcond
        exact hxne (of_decide_eq_true (List.all_eq_true.mp hcond.1 x hxm)))]

/-- Witness for the amended C7: the common pixel count of a successful run
and the raise on a mismatched pair. -/
theorem outer_join_amended_w :
    (buildDS wfFile1 4 (mkRat 1 2)).npix = combinedWF.npix ∧
    load_ses_spectra [cexFileA, cexFileB]
      = Except.error LoadError.concatError :=
  ⟨(outer_join_amended.1 [wfFile1, wfFile2] combinedWF rfl).1
      (buildDS wfFile1 4 (mkRat 1 2)) (by decide),
    outer_join_amended.2 [cexFileA, cexFileB] (by decide)
      ⟨buildDS cexFileA 3 (mkRat 1 10), by decide,
        buildDS cexFileB 3 (mkRat 1 5), by decide, by decide⟩⟩

/-- C8: for a file with a marker line, the body is read as the
tab-separated rows starting on the line immediately after the first marker
line; each row contributes its first field to the energy coordinate and
its remaining fields to the intensity values along the pixel dimension. -/
theorem body_rows_after_marker (f : PyFile) (i : Nat) (a : ℚ)
    (hm : findMarker f.lines = some i)
    (ha : angleOf f.lines i = some a)
    (hnb : ∀ l ∈ f.lines.drop (i + 1), l ≠ "") :
    processFile f = FileOutcome.dataset (buildDS f i a) ∧
    (buildDS f i a).energies
      = (f.lines.drop (i + 1)).map
          (fun l => pyFloatChars ((splitTabs l.data).headD [])) ∧
    (buildDS f i a).rows
      = (f.lines.drop (i + 1)).map
          (fun l => ((splitTabs l.data).drop 1).map pyFloatChars) := by
  have hfilter : (f.lines.drop (i + 1)).filter (fun l => l != "")
      = f.lines.drop (i + 1) := by
    rw [List.filter_eq_self]
    intro l hl
    simpa using hnb l hl
  refine ⟨by simp only [processFile, hm, ha], ?_, ?_⟩
  · simp only [buildDS, tableOf, hfilter, List.map_map]
    rfl
  · simp only [buildDS, tableOf, hfilter, List.map_map]
    rfl

/-- Witness for C8 at a concrete file with marker index 4. -/
theorem body_rows_after_marker_w :
    processFile wfFile1
      = FileOutcome.dataset (buildDS wfFile1 4 (mkRat 1 2)) ∧
    (buildDS wfFile1 4 (mkRat 1 2)).energies
      = (wfFile1.lines.drop 5).map
          (fun l => pyFloatChars ((splitTabs l.data).headD [])) :=
  ⟨(body_rows_after_marker wfFile1 4 (mkRat 1 2) (by decide) (by decide)
      (by decide)).1,
    (body_rows_after_marker wfFile1 4 (mkRat 1 2) (by decide) (by decide)
      (by decide)).2.1⟩

/-- C10: a matched file containing no marker line is skipped silently: no
warning is printed for it, it contributes no slice, and it does not count
as a valid dataset, so a run in which every file lacks the marker raises
the no-valid-data error. -/
theorem no_marker_silent (f : PyFile) (fs1 fs2 : List PyFile)
    (hm : findMarker f.lines = none) :
    processFile f = FileOutcome.silentSkip ∧
    warningsOf (fs1 ++ f :: fs2) = warningsOf (fs1 ++ fs2) ∧
    datasetsOf (fs1 ++ f :: fs2) = datasetsOf (fs1 ++ fs2) ∧
    ((∀ g ∈ fs1 ++ f :: fs2, findMarker g.lines = none) →
      load_ses_spectra (fs1 ++ f :: fs2)
        = Except.error LoadError.noValidData) := by
  have hps : processFile f = FileOutcome.silentSkip := by
    simp only [processFile, hm]
  refine ⟨hps, ?_, ?_, ?_⟩
  · rw [warningsOf_append, warningsOf_append]
    congr 1
    simp [warningsOf, List.filterMap_cons, hps]
  · rw [datasetsOf_append, datasetsOf_append]
    congr 1
    simp [datasetsOf, List.filterMap_cons, hps, FileOutcome.toDataset]
  · intro hall
    have hne : fs1 ++ f :: fs2 ≠ [] := by cases fs1 <;> simp
    refine noValid_core _ hne (fun g hg => ?_)
    have hg2 : processFile g = FileOutcome.silentSkip := by
      simp only [processFile, hall g hg]
    rw [hg2]
    rfl

/-- Witness for C10 at a concrete marker-free file. -/
theorem no_marker_silent_w :
    processFile noMarkerFile = FileOutcome.silentSkip ∧
    warningsOf ([] ++ noMarkerFile :: []) = warningsOf ([] ++ []) ∧
    load_ses_spectra ([] ++ noMarkerFile :: [])
      = Except.error LoadError.noValidData :=
  ⟨(no_marker_silent noMarkerFile [] [] (by decide)).1,
    (no_marker_silent noMarkerFile [] [] (by decide)).2.1,
    (no_marker_silent noMarkerFile [] [] (by decide)).2.2.2 (by decide)⟩

end ERLAB
